import Mathlib

/-!
Verification of the Google Trends report pipeline of `google_trends_tool.py`.

The development below is a shallow embedding of `GoogleTrendsTool._execute`
and its helper report generators.  The external pytrends client is modelled
as a `Provider` record of response functions; a raised provider exception is
an `Except.error`.  Python string building is mirrored by Lean `String`
concatenation, and the pandas frame of combined rows by a list of `Row`
records, one row per date and keyword, as in the long-format dataset the
spec describes.
-/

namespace GoogleTrendsTool

/-- Calendar date, standing for a pandas timestamp indexing a series. -/
structure Date where
  year : Nat
  month : Nat
  day : Nat
deriving DecidableEq, Repr

/-- Interest-over-time series for a single keyword: pairs of date and
integer interest score, in the provider's date order. -/
abbrev Series := List (Date × Nat)

/-- One row of the combined long-format dataset: the frame built by
`data['keyword'] = keyword; pd.concat(...)` in `_execute`. -/
structure Row where
  date : Date
  keyword : String
  value : Nat
deriving DecidableEq, Repr

/-- Little-endian base-10 digits, computed with explicit fuel so that the
kernel can evaluate it (the fuel `n` always suffices for input `n`). -/
def natDigitsAux : Nat → Nat → List Nat
  | 0, _ => []
  | fuel + 1, n => if n = 0 then [] else n % 10 :: natDigitsAux fuel (n / 10)

/-- Little-endian base-10 digits of a natural number. -/
def natDigits (n : Nat) : List Nat := natDigitsAux n n

/-- Character for one decimal digit. -/
def digChar (d : Nat) : Char := Char.ofNat (48 + d)

/-- Decimal rendering of a natural number as characters, most significant
first; models Python `str(value)`. -/
def natToChars (n : Nat) : List Char :=
  if n = 0 then ['0'] else ((natDigits n).map digChar).reverse

/-- Decimal rendering of a natural number; models Python `str(value)`. -/
def natToStr (n : Nat) : String := ⟨natToChars n⟩

/-- Zero-pad a number to two digits, as `strftime('%m')` / `%d` do. -/
def pad2 (n : Nat) : List Char :=
  if n < 10 then '0' :: natToChars n else natToChars n

/-- Zero-pad a number to four digits, as `strftime('%Y')` does. -/
def pad4 (n : Nat) : List Char :=
  if n < 10 then '0' :: '0' :: '0' :: natToChars n
  else if n < 100 then '0' :: '0' :: natToChars n
  else if n < 1000 then '0' :: natToChars n
  else natToChars n

/-- Characters of `date.strftime('%Y-%m-%d')`. -/
def fmtDateChars (d : Date) : List Char :=
  pad4 d.year ++ '-' :: (pad2 d.month ++ '-' :: pad2 d.day)

/-- The string `date.strftime('%Y-%m-%d')`. -/
def fmtDate (d : Date) : String := ⟨fmtDateChars d⟩

/-- The string `"-" * 30` used as a rule in every report section. -/
def dashes30 : String := ⟨List.replicate 30 '-'⟩

/-- Related-queries bundle for one keyword: the `'top'` and `'rising'`
frames, either of which may be `None`. -/
structure RelatedEntry where
  top : Option (List (String × Nat))
  rising : Option (List (String × Nat))

/-- Result dictionary of `pytrends.related_queries()`, keyed by keyword. -/
abbrev RelatedQueries := List (String × RelatedEntry)

/-- External pytrends client: each call either answers or raises. -/
structure Provider where
  interestOverTime : String → String → String → Except String Series
  relatedQueries : String → Except String RelatedQueries
  interestByRegion : String → String → Except String (List (String × Nat))

/-- Translation of `_generate_trend_report`. -/
def generateTrendReport (data : Series) (keyword : String) : String :=
  "Trends Report for '" ++ keyword ++ "':\n\n" ++ "Date\t\tInterest\n" ++
    dashes30 ++ "\n" ++
    String.join (data.map (fun dv => fmtDate dv.1 ++ "\t" ++ natToStr dv.2 ++ "\n")) ++
    "\n"

/-- Lines "`term` - `value`" of a related-queries list. -/
def queryLines (l : List (String × Nat)) : String :=
  String.join (l.map (fun qv => qv.1 ++ " - " ++ natToStr qv.2 ++ "\n"))

/-- Translation of `_generate_related_queries_report`. -/
def generateRelatedQueriesReport (rq : RelatedQueries) (keyword : String) : String :=
  "\nRelated Queries:\n" ++ dashes30 ++ "\n" ++
    (match List.lookup keyword rq with
     | some entry =>
       (match entry.top with
        | some tq => "Top Related Queries for '" ++ keyword ++ "':\n" ++ queryLines tq
        | none => "No top related queries found for '" ++ keyword ++ "'.\n") ++
       (match entry.rising with
        | some rr => "\nRising Queries for '" ++ keyword ++ "':\n" ++ queryLines rr
        | none => "No rising queries found for '" ++ keyword ++ "'.\n")
     | none => "No related queries data available for '" ++ keyword ++ "'.\n") ++
    "\n"

/-- Descending insertion by interest value: place `x` before the first
element whose value is at most `x`'s. -/
def insertDesc (x : String × Nat) : List (String × Nat) → List (String × Nat)
  | [] => [x]
  | y :: ys => if y.2 ≤ x.2 then x :: y :: ys else y :: insertDesc x ys

/-- Sort a region-interest table by descending value, modelling
`geo_data.sort_values(by=keyword, ascending=False)`. -/
def sortDesc : List (String × Nat) → List (String × Nat)
  | [] => []
  | x :: xs => insertDesc x (sortDesc xs)

/-- The regions actually listed in the geo section:
`sort_values(..., ascending=False).head(10)`. -/
def geoTop (geoData : List (String × Nat)) : List (String × Nat) :=
  (sortDesc geoData).take 10

/-- Translation of `_generate_geo_report`; `geoData` is the column of the
region frame selected by the keyword. -/
def generateGeoReport (geoData : List (String × Nat)) (_keyword : String) : String :=
  if geoData.isEmpty then "No geographical data available.\n"
  else
    "\nGeographical Analysis:\n" ++ dashes30 ++ "\n" ++
      String.join ((geoTop geoData).map (fun rv => rv.1 ++ " - " ++ natToStr rv.2 ++ "\n")) ++
      "\n"

/-- Maximum interest of a series, modelling `seasonality_data[keyword].max()`. -/
def maxInterest (data : Series) : Nat := (data.map (fun dv => dv.2)).foldl max 0

/-- Dates attaining the maximum, modelling
`seasonality_data[seasonality_data[keyword] == max_interest].index`. -/
def peakDates (data : Series) : List Date :=
  (data.filter (fun dv => dv.2 == maxInterest data)).map (fun dv => dv.1)

/-- Translation of `_generate_seasonality_report`. -/
def generateSeasonalityReport (data : Series) (keyword : String) : String :=
  if data.isEmpty then "No seasonality data available.\n"
  else
    "\nSeasonality Analysis:\n" ++ dashes30 ++ "\n" ++
      ("\nSeasonality for '" ++ keyword ++ "':\n") ++
      String.join ((peakDates data).map (fun d =>
        "Peak interest on " ++ fmtDate d ++ " with value " ++ natToStr (maxInterest data) ++ "\n")) ++
      "\n"

/-- Kind tag of a report section, following the spec's Report data model;
each `report += ...` statement of `_execute` appends one tagged section. -/
inductive SectionKind
  | trend
  | related
  | geo
  | seasonality
  | error
  | nodata
deriving DecidableEq, Repr

/-- One tagged text section of the composed report. -/
structure ReportSection where
  kind : SectionKind
  text : String
deriving DecidableEq, Repr

/-- Mutable state of the `_execute` loop: the combined frame, the report
(as its sequence of appended sections), and a log of every
`build_payload`/`interest_over_time` provider request `(keyword, timeframe)`. -/
structure ExecState where
  combined : List Row
  sections : List ReportSection
  requests : List (String × String)
deriving DecidableEq, Repr

/-- State at the top of `_execute`: empty frame, empty report. -/
def initState : ExecState := ⟨[], [], []⟩

/-- Append one report section. -/
def addSection (st : ExecState) (k : SectionKind) (text : String) : ExecState :=
  { st with sections := st.sections ++ [⟨k, text⟩] }

/-- Log one time-window provider request. -/
def logRequest (st : ExecState) (keyword timeframe : String) : ExecState :=
  { st with requests := st.requests ++ [(keyword, timeframe)] }

/-- Inline error line `f"Error fetching data for '{keyword}': {str(e)}\n"`. -/
def errorLine (keyword e : String) : String :=
  "Error fetching data for '" ++ keyword ++ "': " ++ e ++ "\n"

/-- Inline note `f"No trending data found for '{keyword}'.\n"`. -/
def noDataLine (keyword : String) : String :=
  "No trending data found for '" ++ keyword ++ "'.\n"

/-- Rows contributed by one keyword's series to the combined frame. -/
def rowsOf (keyword : String) (data : Series) : List Row :=
  data.map (fun dv => ⟨dv.1, keyword, dv.2⟩)

/-- Seasonality stage of the per-keyword try block: `_analyze_seasonality`
reissues the query with timeframe `'all'`, then the report is appended; a
provider error ends the block with an inline error line. -/
def seasonStage (p : Provider) (geo : String) (includeSeasonality : Bool)
    (keyword : String) (st : ExecState) : ExecState :=
  if includeSeasonality then
    let st := logRequest st keyword "all"
    match p.interestOverTime keyword "all" geo with
    | .error e => addSection st .error (errorLine keyword e)
    | .ok sd => addSection st .seasonality (generateSeasonalityReport sd keyword)
  else st

/-- Geo-analysis stage of the per-keyword try block; an error skips the
remaining stages of the block. -/
def geoStage (p : Provider) (geo : String) (includeGeo includeSeasonality : Bool)
    (keyword : String) (st : ExecState) : ExecState :=
  if includeGeo then
    match p.interestByRegion keyword geo with
    | .error e => addSection st .error (errorLine keyword e)
    | .ok gd =>
      seasonStage p geo includeSeasonality keyword
        (addSection st .geo (generateGeoReport gd keyword))
  else seasonStage p geo includeSeasonality keyword st

/-- Related-queries stage of the per-keyword try block; an error skips the
remaining stages of the block. -/
def relatedStage (p : Provider) (geo : String)
    (includeRelated includeGeo includeSeasonality : Bool)
    (keyword : String) (st : ExecState) : ExecState :=
  if includeRelated then
    match p.relatedQueries keyword with
    | .error e => addSection st .error (errorLine keyword e)
    | .ok rq =>
      geoStage p geo includeGeo includeSeasonality keyword
        (addSection st .related (generateRelatedQueriesReport rq keyword))
  else geoStage p geo includeGeo includeSeasonality keyword st

/-- Body of the `for keyword in keywords` loop of `_execute`: one
`build_payload`/`interest_over_time` request, the empty-data early
`continue`, the append to `combined_data`, the trend section, then the
optional stages; any provider exception inside the try block is caught and
downgraded to an inline error line. -/
def processKeyword (p : Provider) (timeframe geo : String)
    (includeRelated includeGeo includeSeasonality : Bool)
    (st : ExecState) (keyword : String) : ExecState :=
  let st := logRequest st keyword timeframe
  match p.interestOverTime keyword timeframe geo with
  | .error e => addSection st .error (errorLine keyword e)
  | .ok data =>
    if data.isEmpty then addSection st .nodata (noDataLine keyword)
    else
      relatedStage p geo includeRelated includeGeo includeSeasonality keyword
        (addSection { st with combined := st.combined ++ rowsOf keyword data }
          .trend (generateTrendReport data keyword))

/-- The whole fetch loop of `_execute`. -/
def runKeywords (p : Provider) (timeframe geo : String)
    (includeRelated includeGeo includeSeasonality : Bool)
    (keywords : List String) : ExecState :=
  keywords.foldl
    (processKeyword p timeframe geo includeRelated includeGeo includeSeasonality)
    initState

/-- Flat report string: concatenation of the appended sections, exactly the
`report` variable of `_execute`. -/
def reportText (st : ExecState) : String :=
  String.join (st.sections.map (fun s => s.text))

/-- Base of the artifact name:
`f"{'_'.join([k.replace(' ', '_') for k in keywords])}_trends_report"`. -/
def filenameBase (keywords : List String) : String :=
  String.intercalate "_" (keywords.map (fun k => k.replace " " "_")) ++ "_trends_report"

/-- Artifact written by the save branch of `_execute`: which sink received
which payload. -/
inductive Artifact
  | txt (filename : String) (content : String)
  | csvFile (filename : String) (rows : List Row)
  | jsonFile (filename : String) (rows : List Row)
  | dbTable (table : String) (rows : List Row)
deriving DecidableEq, Repr

/-- Rows carried by a structured artifact, none for the text sink. -/
def artifactRows : Artifact → Option (List Row)
  | .txt _ _ => none
  | .csvFile _ rows => some rows
  | .jsonFile _ rows => some rows
  | .dbTable _ rows => some rows

/-- Report text carried by an artifact, none for the structured sinks. -/
def artifactText : Artifact → Option String
  | .txt _ content => some content
  | .csvFile _ _ => none
  | .jsonFile _ _ => none
  | .dbTable _ _ => none

/-- Save branch of `_execute` together with the confirmation strings of
`_save_to_csv`, `_save_to_json`, `_save_to_db` and `_save_to_txt`. -/
def saveReport (saveFormat : String) (base : String) (report : String)
    (combined : List Row) : Artifact × String :=
  if saveFormat = "csv" then
    (.csvFile (base ++ ".csv") combined, "Successfully saved report to " ++ base ++ ".csv.")
  else if saveFormat = "json" then
    (.jsonFile (base ++ ".json") combined, "Successfully saved data to " ++ base ++ ".json.")
  else if saveFormat = "db" then
    (.dbTable "trends" combined, "Data saved to database table 'trends'.")
  else
    (.txt (base ++ ".txt") report, "Successfully saved report to " ++ base ++ ".txt.")

/-- Translation of `GoogleTrendsTool._execute`: run the fetch loop, then
dispatch on the save format. -/
def execute (p : Provider) (keywords : List String) (timeframe geo saveFormat : String)
    (includeRelated includeGeo includeSeasonality : Bool) : Artifact × String :=
  let st := runKeywords p timeframe geo includeRelated includeGeo includeSeasonality keywords
  saveReport saveFormat (filenameBase keywords) (reportText st) st.combined

/-- Split a character list at every occurrence of `sep`, CSV style: `n`
separators yield `n + 1` fields. -/
def splitCh (sep : Char) : List Char → List (List Char)
  | [] => [[]]
  | c :: cs =>
    if c = sep then [] :: splitCh sep cs
    else
      match splitCh sep cs with
      | [] => [[c]]
      | f :: rest => (c :: f) :: rest

/-- Digit values of a character list, or `none` when a character is not a
decimal digit; models the integer parsing of a CSV reader. -/
def charDigits? : List Char → Option (List Nat)
  | [] => some []
  | c :: cs =>
    if c.isDigit then (charDigits? cs).map (fun ds => (c.toNat - 48) :: ds) else none

/-- Parse a non-empty all-digit field as a natural number. -/
def parseNatChars (l : List Char) : Option Nat :=
  if l.isEmpty then none
  else (charDigits? l).map (fun ds => Nat.ofDigits 10 ds.reverse)

/-- Parse a `YYYY-MM-DD` field back into a date. -/
def parseDateChars (l : List Char) : Option Date :=
  match splitCh '-' l with
  | [yf, mf, df] =>
    match parseNatChars yf, parseNatChars mf, parseNatChars df with
    | some y, some m, some d => some ⟨y, m, d⟩
    | _, _, _ => none
  | _ => none

/-- One CSV body line of the combined dataset, long format
`date,keyword,value`. -/
def renderLine (r : Row) : String :=
  ⟨fmtDateChars r.date ++ ',' :: (r.keyword.data ++ ',' :: natToChars r.value)⟩

/-- Parse one CSV body line back into a row. -/
def parseLine (s : String) : Option Row :=
  match splitCh ',' s.data with
  | [df, kf, vf] =>
    match parseDateChars df, parseNatChars vf with
    | some d, some v => some ⟨d, ⟨kf⟩, v⟩
    | _, _ => none
  | _ => none

/-- The csv sink `_save_to_csv` on the combined long-format dataset: a
header line followed by one line per row. -/
def saveToCsvLines (rows : List Row) : List String :=
  "date,keyword,value" :: rows.map renderLine

/-- A CSV reader over the written lines: skip the header, parse each body
line. -/
def readCsvLines (lines : List String) : Option (List Row) :=
  match lines with
  | [] => none
  | _header :: body => body.mapM parseLine

/-- A keyword that needs no CSV quoting: free of the separator, of quotes
and of line breaks.  On such keywords the unquoted sink model is faithful
to `DataFrame.to_csv`. -/
def plainKeyword (k : String) : Prop :=
  ',' ∉ k.data ∧ '"' ∉ k.data ∧ '\n' ∉ k.data

instance (k : String) : Decidable (plainKeyword k) := by
  unfold plainKeyword
  infer_instance

/-! ### Decimal rendering agrees with `Nat.digits`, and parsing inverts it -/

theorem natDigitsAux_eq (fuel : Nat) : ∀ n, n ≤ fuel → natDigitsAux fuel n = Nat.digits 10 n := by
  induction fuel with
  | zero =>
    intro n hn
    interval_cases n
    simp [natDigitsAux]
  | succ fuel ih =>
    intro n hn
    by_cases h0 : n = 0
    · subst h0; simp [natDigitsAux]
    · have hpos : 0 < n := Nat.pos_of_ne_zero h0
      have hdiv : n / 10 ≤ fuel := by
        have : n / 10 < n := Nat.div_lt_self hpos (by norm_num)
        omega
      rw [natDigitsAux, if_neg h0, ih _ hdiv, Nat.digits_def' (by norm_num : (1 : Nat) < 10) hpos]

theorem natDigits_eq (n : Nat) : natDigits n = Nat.digits 10 n :=
  natDigitsAux_eq n n le_rfl

theorem natDigits_lt (n : Nat) : ∀ d ∈ natDigits n, d < 10 := by
  intro d hd
  rw [natDigits_eq] at hd
  exact Nat.digits_lt_base (by norm_num) hd

theorem digChar_isDigit : ∀ d, d < 10 → (digChar d).isDigit = true := by decide

theorem digChar_toNat : ∀ d, d < 10 → (digChar d).toNat - 48 = d := by decide

theorem charDigits?_map_digChar (ds : List Nat) (h : ∀ d ∈ ds, d < 10) :
    charDigits? (ds.map digChar) = some ds := by
  induction ds with
  | nil => rfl
  | cons d ds ih =>
    have hd : d < 10 := h d (by simp)
    rw [List.map_cons, charDigits?, if_pos (digChar_isDigit d hd),
      ih (fun x hx => h x (by simp [hx])), Option.map_some', digChar_toNat d hd]

theorem parseNatChars_natToChars (n : Nat) : parseNatChars (natToChars n) = some n := by
  by_cases h0 : n = 0
  · subst h0; decide
  · have hne : natDigits n ≠ [] := by
      rw [natDigits_eq]
      exact Nat.digits_ne_nil_iff_ne_zero.mpr h0
    have hrev : ((natDigits n).map digChar).reverse = (natDigits n).reverse.map digChar := by
      rw [List.map_reverse]
    rw [natToChars, if_neg h0, parseNatChars]
    have hnonempty : (((natDigits n).map digChar).reverse).isEmpty = false := by
      rcases List.exists_cons_of_ne_nil hne with ⟨d, ds, hds⟩
      simp [hds]
    rw [hnonempty]
    simp only [Bool.false_eq_true, if_false, hrev]
    rw [charDigits?_map_digChar _ (fun d hd => natDigits_lt n d (List.mem_reverse.mp hd))]
    rw [Option.map_some', List.reverse_reverse, natDigits_eq, Nat.ofDigits_digits]

theorem parseNatChars_ne_nil (l : List Char) (n : Nat) (h : parseNatChars l = some n) :
    l ≠ [] := by
  intro hl
  subst hl
  simp [parseNatChars] at h

theorem parseNatChars_cons_zero (l : List Char) (n : Nat) (h : parseNatChars l = some n) :
    parseNatChars ('0' :: l) = some n := by
  rw [parseNatChars] at h
  rcases hne : l.isEmpty with _ | _
  · rw [hne] at h
    simp only [Bool.false_eq_true, if_false] at h
    rcases hcd : charDigits? l with _ | ds
    · rw [hcd] at h; simp at h
    · rw [hcd, Option.map_some'] at h
      have hv : Nat.ofDigits 10 ds.reverse = n := by
        injection h
      rw [parseNatChars]
      have : ('0' :: l).isEmpty = false := rfl
      rw [this]
      simp only [Bool.false_eq_true, if_false]
      rw [charDigits?, if_pos (by decide : ('0').isDigit = true), hcd, Option.map_some',
        Option.map_some']
      have hz : ('0').toNat - 48 = 0 := by decide
      rw [hz]
      congr 1
      rw [List.reverse_cons, Nat.ofDigits_append, hv]
      simp [Nat.ofDigits]
  · rw [hne] at h
    simp at h

theorem parseNatChars_pad2 (n : Nat) : parseNatChars (pad2 n) = some n := by
  rw [pad2]
  split
  · exact parseNatChars_cons_zero _ _ (parseNatChars_natToChars n)
  · exact parseNatChars_natToChars n

theorem parseNatChars_pad4 (n : Nat) : parseNatChars (pad4 n) = some n := by
  rw [pad4]
  split
  · exact parseNatChars_cons_zero _ _ (parseNatChars_cons_zero _ _
      (parseNatChars_cons_zero _ _ (parseNatChars_natToChars n)))
  · split
    · exact parseNatChars_cons_zero _ _ (parseNatChars_cons_zero _ _
        (parseNatChars_natToChars n))
    · split
      · exact parseNatChars_cons_zero _ _ (parseNatChars_natToChars n)
      · exact parseNatChars_natToChars n

theorem natToChars_isDigit (n : Nat) : ∀ c ∈ natToChars n, c.isDigit = true := by
  intro c hc
  rw [natToChars] at hc
  split at hc
  · rw [List.mem_singleton] at hc
    subst hc; decide
  · rcases List.mem_map.mp (List.mem_reverse.mp hc) with ⟨d, hd, rfl⟩
    exact digChar_isDigit d (natDigits_lt n d hd)

theorem pad2_isDigit (n : Nat) : ∀ c ∈ pad2 n, c.isDigit = true := by
  intro c hc
  rw [pad2] at hc
  split at hc
  · rcases List.mem_cons.mp hc with hc | hc
    · subst hc; decide
    · exact natToChars_isDigit n c hc
  · exact natToChars_isDigit n c hc

theorem pad4_isDigit (n : Nat) : ∀ c ∈ pad4 n, c.isDigit = true := by
  intro c hc
  rw [pad4] at hc
  split at hc
  · rcases List.mem_cons.mp hc with hc | hc
    · subst hc; decide
    rcases List.mem_cons.mp hc with hc | hc
    · subst hc; decide
    rcases List.mem_cons.mp hc with hc | hc
    · subst hc; decide
    · exact natToChars_isDigit n c hc
  · split at hc
    · rcases List.mem_cons.mp hc with hc | hc
      · subst hc; decide
      rcases List.mem_cons.mp hc with hc | hc
      · subst hc; decide
      · exact natToChars_isDigit n c hc
    · split at hc
      · rcases List.mem_cons.mp hc with hc | hc
        · subst hc; decide
        · exact natToChars_isDigit n c hc
      · exact natToChars_isDigit n c hc

theorem isDigit_ne_comma {c : Char} (h : c.isDigit = true) : c ≠ ',' := by
  intro hc
  subst hc
  simp [Char.isDigit] at h

theorem isDigit_ne_dash {c : Char} (h : c.isDigit = true) : c ≠ '-' := by
  intro hc
  subst hc
  simp [Char.isDigit] at h

/-! ### Field splitting inverts unquoted CSV rendering -/

theorem splitCh_ne_nil (sep : Char) (l : List Char) : splitCh sep l ≠ [] := by
  induction l with
  | nil => simp [splitCh]
  | cons c cs ih =>
    rw [splitCh]
    split
    · simp
    · rcases h : splitCh sep cs with _ | ⟨f, rest⟩
      · simp
      · simp [h]

theorem splitCh_not_mem (sep : Char) (l : List Char) (h : sep ∉ l) : splitCh sep l = [l] := by
  induction l with
  | nil => rfl
  | cons c cs ih =>
    have hc : c ≠ sep := fun hcs => h (hcs ▸ List.mem_cons_self c cs)
    rw [splitCh, if_neg hc, ih (fun hm => h (List.mem_cons_of_mem c hm))]

theorem splitCh_append_cons (sep : Char) (a b : List Char) (h : sep ∉ a) :
    splitCh sep (a ++ sep :: b) = a :: splitCh sep b := by
  induction a with
  | nil => simp [splitCh]
  | cons c cs ih =>
    have hc : c ≠ sep := fun hcs => h (hcs ▸ List.mem_cons_self c cs)
    rw [List.cons_append, splitCh, if_neg hc, ih (fun hm => h (List.mem_cons_of_mem c hm))]

theorem comma_not_mem_fmtDateChars (d : Date) : ',' ∉ fmtDateChars d := by
  intro hm
  rw [fmtDateChars] at hm
  rcases List.mem_append.mp hm with hm | hm
  · exact isDigit_ne_comma (pad4_isDigit d.year ',' hm) rfl
  rcases List.mem_cons.mp hm with hm | hm
  · exact absurd hm (by decide)
  rcases List.mem_append.mp hm with hm | hm
  · exact isDigit_ne_comma (pad2_isDigit d.month ',' hm) rfl
  rcases List.mem_cons.mp hm with hm | hm
  · exact absurd hm (by decide)
  · exact isDigit_ne_comma (pad2_isDigit d.day ',' hm) rfl

theorem comma_not_mem_natToChars (n : Nat) : ',' ∉ natToChars n := by
  intro hm
  exact isDigit_ne_comma (natToChars_isDigit n ',' hm) rfl

theorem dash_not_mem_pad4 (n : Nat) : '-' ∉ pad4 n := by
  intro hm
  exact isDigit_ne_dash (pad4_isDigit n '-' hm) rfl

theorem dash_not_mem_pad2 (n : Nat) : '-' ∉ pad2 n := by
  intro hm
  exact isDigit_ne_dash (pad2_isDigit n '-' hm) rfl

theorem parseDateChars_fmtDateChars (d : Date) : parseDateChars (fmtDateChars d) = some d := by
  rw [parseDateChars, fmtDateChars,
    splitCh_append_cons '-' (pad4 d.year) _ (dash_not_mem_pad4 d.year),
    splitCh_append_cons '-' (pad2 d.month) _ (dash_not_mem_pad2 d.month),
    splitCh_not_mem '-' (pad2 d.day) (dash_not_mem_pad2 d.day)]
  simp only [parseNatChars_pad4, parseNatChars_pad2]

theorem parseLine_renderLine (r : Row) (h : plainKeyword r.keyword) :
    parseLine (renderLine r) = some r := by
  rw [parseLine, renderLine]
  have hdata : (String.mk (fmtDateChars r.date ++ ',' ::
      (r.keyword.data ++ ',' :: natToChars r.value))).data
      = fmtDateChars r.date ++ ',' :: (r.keyword.data ++ ',' :: natToChars r.value) := rfl
  rw [hdata,
    splitCh_append_cons ',' (fmtDateChars r.date) _ (comma_not_mem_fmtDateChars r.date),
    splitCh_append_cons ',' r.keyword.data _ h.1,
    splitCh_not_mem ',' (natToChars r.value) (comma_not_mem_natToChars r.value)]
  simp only [parseDateChars_fmtDateChars, parseNatChars_natToChars]

theorem readCsv_mapM (rows : List Row) (h : ∀ r ∈ rows, plainKeyword r.keyword) :
    (rows.map renderLine).mapM parseLine = some rows := by
  induction rows with
  | nil => rfl
  | cons r rs ih =>
    rw [List.map_cons, List.mapM_cons,
      parseLine_renderLine r (h r (by simp)), ih (fun x hx => h x (by simp [hx]))]
    rfl

/-! ### Descending sort produces a non-increasing value sequence -/

theorem mem_insertDesc (x a : String × Nat) (l : List (String × Nat)) :
    a ∈ insertDesc x l ↔ a = x ∨ a ∈ l := by
  induction l with
  | nil => simp [insertDesc]
  | cons y ys ih =>
    rw [insertDesc]
    split
    · simp [List.mem_cons]
    · rw [List.mem_cons, ih, List.mem_cons]
      tauto

theorem pairwise_insertDesc (x : String × Nat) (l : List (String × Nat))
    (h : List.Pairwise (fun a b => b.2 ≤ a.2) l) :
    List.Pairwise (fun a b => b.2 ≤ a.2) (insertDesc x l) := by
  induction l with
  | nil => simp [insertDesc]
  | cons y ys ih =>
    rw [insertDesc]
    rcases List.pairwise_cons.mp h with ⟨hy, hys⟩
    split
    · rename_i hle
      refine List.pairwise_cons.mpr ⟨?_, h⟩
      intro b hb
      rcases List.mem_cons.mp hb with hb | hb
      · exact hb ▸ hle
      · exact le_trans (hy b hb) hle
    · rename_i hgt
      refine List.pairwise_cons.mpr ⟨?_, ih hys⟩
      intro b hb
      rcases (mem_insertDesc x b ys).mp hb with hb | hb
      · exact hb ▸ le_of_not_le hgt
      · exact hy b hb

theorem pairwise_sortDesc (l : List (String × Nat)) :
    List.Pairwise (fun a b => b.2 ≤ a.2) (sortDesc l) := by
  induction l with
  | nil => simp [sortDesc]
  | cons x xs ih => exact pairwise_insertDesc x (sortDesc xs) ih

theorem geoTop_pairwise (l : List (String × Nat)) :
    List.Pairwise (fun a b => b.2 ≤ a.2) (geoTop l) :=
  List.Pairwise.sublist (List.take_sublist 10 (sortDesc l)) (pairwise_sortDesc l)

theorem geoTop_length (l : List (String × Nat)) : (geoTop l).length ≤ 10 :=
  List.length_take_le 10 (sortDesc l)

/-! ### Maximum and peak dates of a series -/

theorem foldl_max_mem (l : List Nat) : ∀ a, l.foldl max a = a ∨ l.foldl max a ∈ l := by
  induction l with
  | nil => intro a; left; rfl
  | cons x xs ih =>
    intro a
    rw [List.foldl_cons]
    rcases ih (max a x) with h | h
    · rcases max_choice a x with hm | hm
      · left; rw [h, hm]
      · right; rw [h, hm]; exact List.mem_cons_self x xs
    · right; exact List.mem_cons_of_mem x h

theorem init_le_foldl_max (l : List Nat) : ∀ a, a ≤ l.foldl max a := by
  induction l with
  | nil => intro a; exact le_rfl
  | cons y ys ih =>
    intro a
    rw [List.foldl_cons]
    exact le_trans (le_max_left a y) (ih (max a y))

theorem le_foldl_max (l : List Nat) : ∀ a x, x ∈ l → x ≤ l.foldl max a := by
  induction l with
  | nil => intro a x hx; cases hx
  | cons y ys ih =>
    intro a x hx
    rw [List.foldl_cons]
    rcases List.mem_cons.mp hx with hx | hx
    · subst hx
      calc x ≤ max a x := le_max_right a x
        _ ≤ ys.foldl max (max a x) := init_le_foldl_max ys (max a x)
    · exact ih (max a y) x hx

theorem maxInterest_mem (data : Series) (h : data ≠ []) :
    maxInterest data ∈ data.map (fun dv => dv.2) := by
  rcases foldl_max_mem (data.map (fun dv => dv.2)) 0 with h0 | hm
  · rcases List.exists_cons_of_ne_nil h with ⟨dv, rest, hd⟩
    subst hd
    have hle : dv.2 ≤ (List.map (fun dv => dv.2) (dv :: rest)).foldl max 0 :=
      le_foldl_max _ 0 dv.2 (by simp)
    rw [h0] at hle
    rw [maxInterest, h0]
    have hz : dv.2 = 0 := Nat.le_zero.mp hle
    simp [← hz]
  · rw [maxInterest]
    exact hm

theorem le_maxInterest (data : Series) : ∀ v ∈ data.map (fun dv => dv.2), v ≤ maxInterest data :=
  fun v hv => le_foldl_max _ 0 v hv

theorem mem_peakDates (data : Series) (d : Date) :
    d ∈ peakDates data ↔ (d, maxInterest data) ∈ data := by
  rw [peakDates]
  constructor
  · intro hd
    rcases List.mem_map.mp hd with ⟨dv, hdv, hfst⟩
    rcases List.mem_filter.mp hdv with ⟨hmem, hval⟩
    have : dv.2 = maxInterest data := beq_iff_eq.mp hval
    have hdv2 : dv = (d, maxInterest data) := by
      cases dv
      simp_all
    exact hdv2 ▸ hmem
  · intro hd
    refine List.mem_map.mpr ⟨(d, maxInterest data), List.mem_filter.mpr ⟨hd, ?_⟩, rfl⟩
    simp

theorem peakDates_ne_nil (data : Series) (h : data ≠ []) : peakDates data ≠ [] := by
  rcases List.mem_map.mp (maxInterest_mem data h) with ⟨dv, hdv, hval⟩
  intro hnil
  have : dv.1 ∈ peakDates data := by
    rw [mem_peakDates]
    have : dv = (dv.1, maxInterest data) := by
      cases dv
      simp_all
    exact this ▸ hdv
  rw [hnil] at this
  cases this

/-! ### Shape of the loop state after one keyword -/

/-- Rows the main fetch of one keyword contributes to the combined frame:
the complete series on a non-empty success, nothing otherwise. -/
def mainRows (p : Provider) (timeframe geo keyword : String) : List Row :=
  match p.interestOverTime keyword timeframe geo with
  | .error _ => []
  | .ok data => if data.isEmpty then [] else rowsOf keyword data

/-- Series of a successful main fetch, empty on a provider error. -/
def okData (p : Provider) (timeframe geo keyword : String) : Series :=
  match p.interestOverTime keyword timeframe geo with
  | .error _ => []
  | .ok data => data

theorem addSection_combined (st : ExecState) (k : SectionKind) (t : String) :
    (addSection st k t).combined = st.combined := rfl

theorem logRequest_combined (st : ExecState) (kw tf : String) :
    (logRequest st kw tf).combined = st.combined := rfl

theorem addSection_requests (st : ExecState) (k : SectionKind) (t : String) :
    (addSection st k t).requests = st.requests := rfl

theorem logRequest_sections (st : ExecState) (kw tf : String) :
    (logRequest st kw tf).sections = st.sections := rfl

theorem seasonStage_combined (p : Provider) (geo : String) (b : Bool) (kw : String)
    (st : ExecState) : (seasonStage p geo b kw st).combined = st.combined := by
  rw [seasonStage]
  split
  · cases p.interestOverTime kw "all" geo <;> rfl
  · rfl

theorem geoStage_combined (p : Provider) (geo : String) (bg bs : Bool) (kw : String)
    (st : ExecState) : (geoStage p geo bg bs kw st).combined = st.combined := by
  rw [geoStage]
  split
  · cases p.interestByRegion kw geo with
    | error e => rfl
    | ok gd => rw [seasonStage_combined, addSection_combined]
  · rw [seasonStage_combined]

theorem relatedStage_combined (p : Provider) (geo : String) (br bg bs : Bool) (kw : String)
    (st : ExecState) : (relatedStage p geo br bg bs kw st).combined = st.combined := by
  rw [relatedStage]
  split
  · cases p.relatedQueries kw with
    | error e => rfl
    | ok rq => rw [geoStage_combined, addSection_combined]
  · rw [geoStage_combined]

theorem processKeyword_combined (p : Provider) (tf geo : String) (br bg bs : Bool)
    (st : ExecState) (kw : String) :
    (processKeyword p tf geo br bg bs st kw).combined = st.combined ++ mainRows p tf geo kw := by
  rw [processKeyword, mainRows]
  cases hf : p.interestOverTime kw tf geo with
  | error e => simp [addSection, logRequest]
  | ok data =>
    by_cases he : data.isEmpty
    · simp [he, addSection, logRequest]
    · simp only [he, Bool.false_eq_true, if_false]
      rw [relatedStage_combined, addSection_combined]
      simp [logRequest]

theorem foldl_combined (p : Provider) (tf geo : String) (br bg bs : Bool) :
    ∀ (ks : List String) (st : ExecState),
      (ks.foldl (processKeyword p tf geo br bg bs) st).combined
        = st.combined ++ ks.flatMap (mainRows p tf geo) := by
  intro ks
  induction ks with
  | nil => intro st; simp
  | cons kw ks ih =>
    intro st
    rw [List.foldl_cons, ih, processKeyword_combined, List.flatMap_cons, List.append_assoc]

/-- The combined frame of a full run: the concatenation, in list order, of
each keyword occurrence's complete main series (or nothing). -/
theorem runKeywords_combined (p : Provider) (tf geo : String) (br bg bs : Bool)
    (ks : List String) :
    (runKeywords p tf geo br bg bs ks).combined = ks.flatMap (mainRows p tf geo) := by
  rw [runKeywords, foldl_combined]
  rfl

theorem mainRows_keyword (p : Provider) (tf geo kw : String) :
    ∀ r ∈ mainRows p tf geo kw, r.keyword = kw := by
  intro r hr
  rw [mainRows] at hr
  split at hr
  · cases hr
  · split at hr
    · cases hr
    · rw [rowsOf] at hr
      rcases List.mem_map.mp hr with ⟨dv, _, rfl⟩
      rfl

/-! ### Requests issued per keyword -/

theorem seasonStage_requests (p : Provider) (geo : String) (b : Bool) (kw : String)
    (st : ExecState) :
    (seasonStage p geo b kw st).requests
      = st.requests ++ (if b then [(kw, "all")] else []) := by
  rw [seasonStage]
  split
  · cases p.interestOverTime kw "all" geo <;> simp [addSection, logRequest]
  · simp

theorem geoStage_requests (p : Provider) (geo : String) (bg bs : Bool) (kw : String)
    (st : ExecState) :
    ∃ t, (geoStage p geo bg bs kw st).requests = st.requests ++ t
      ∧ (t = [] ∨ t = [(kw, "all")]) := by
  rw [geoStage]
  split
  · cases p.interestByRegion kw geo with
    | error e => exact ⟨[], by simp [addSection], Or.inl rfl⟩
    | ok gd =>
      refine ⟨if bs then [(kw, "all")] else [], ?_, ?_⟩
      · rw [seasonStage_requests, addSection_requests]
      · cases bs <;> simp
  · refine ⟨if bs then [(kw, "all")] else [], seasonStage_requests p geo bs kw st, ?_⟩
    cases bs <;> simp

theorem relatedStage_requests (p : Provider) (geo : String) (br bg bs : Bool) (kw : String)
    (st : ExecState) :
    ∃ t, (relatedStage p geo br bg bs kw st).requests = st.requests ++ t
      ∧ (t = [] ∨ t = [(kw, "all")]) := by
  rw [relatedStage]
  split
  · cases p.relatedQueries kw with
    | error e => exact ⟨[], by simp [addSection], Or.inl rfl⟩
    | ok rq =>
      rcases geoStage_requests p geo bg bs kw (addSection st .related
        (generateRelatedQueriesReport rq kw)) with ⟨t, ht, hcase⟩
      exact ⟨t, by rw [ht, addSection_requests], hcase⟩
  · exact geoStage_requests p geo bg bs kw st

theorem processKeyword_requests (p : Provider) (tf geo : String) (br bg bs : Bool)
    (st : ExecState) (kw : String) :
    ∃ t, (processKeyword p tf geo br bg bs st kw).requests = st.requests ++ (kw, tf) :: t
      ∧ (t = [] ∨ t = [(kw, "all")]) := by
  rw [processKeyword]
  cases hf : p.interestOverTime kw tf geo with
  | error e => exact ⟨[], by simp [addSection, logRequest], Or.inl rfl⟩
  | ok data =>
    by_cases he : data.isEmpty
    · exact ⟨[], by simp [he, addSection, logRequest], Or.inl rfl⟩
    · simp only [he, Bool.false_eq_true, if_false]
      rcases relatedStage_requests p geo br bg bs kw
        (addSection { logRequest st kw tf with
            combined := (logRequest st kw tf).combined ++ rowsOf kw data }
          .trend (generateTrendReport data kw)) with ⟨t, ht, hcase⟩
      refine ⟨t, ?_, hcase⟩
      rw [ht]
      simp [addSection, logRequest]

theorem geoStage_requests_noSeason (p : Provider) (geo : String) (bg : Bool) (kw : String)
    (st : ExecState) : (geoStage p geo bg false kw st).requests = st.requests := by
  rw [geoStage]
  split
  · cases p.interestByRegion kw geo with
    | error e => rfl
    | ok gd => rw [seasonStage_requests, addSection_requests]; simp
  · rw [seasonStage_requests]; simp

theorem relatedStage_requests_noSeason (p : Provider) (geo : String) (br bg : Bool)
    (kw : String) (st : ExecState) :
    (relatedStage p geo br bg false kw st).requests = st.requests := by
  rw [relatedStage]
  split
  · cases p.relatedQueries kw with
    | error e => rfl
    | ok rq => rw [geoStage_requests_noSeason, addSection_requests]
  · rw [geoStage_requests_noSeason]

/-- With seasonality disabled, each keyword occurrence issues exactly its
one main request. -/
theorem processKeyword_requests_noSeason (p : Provider) (tf geo : String) (br bg : Bool)
    (st : ExecState) (kw : String) :
    (processKeyword p tf geo br bg false st kw).requests = st.requests ++ [(kw, tf)] := by
  rw [processKeyword]
  cases hf : p.interestOverTime kw tf geo with
  | error e => simp [addSection, logRequest]
  | ok data =>
    by_cases he : data.isEmpty
    · simp [he, addSection, logRequest]
    · simp only [he, Bool.false_eq_true, if_false]
      rw [relatedStage_requests_noSeason, addSection_requests]
      simp [logRequest]

/-- Number of time-window provider requests in the log whose subject is
`kw`. -/
def requestCount (st : ExecState) (kw : String) : Nat :=
  (st.requests.filter (fun r => r.1 == kw)).length

theorem filter_subject_cons (kw kw' tf : String) (t : List (String × String))
    (ht : ∀ r ∈ t, r.1 = kw') :
    ((((kw', tf) :: t).filter (fun r => r.1 == kw)).length
        = if kw' = kw then 1 + (t.filter (fun r => r.1 == kw)).length else 0)
      ∧ (t.filter (fun r => r.1 == kw)).length ≤ t.length := by
  constructor
  · by_cases hk : kw' = kw
    · rw [if_pos hk, List.filter_cons]
      have hb : ((kw', tf).1 == kw) = true := beq_iff_eq.mpr hk
      simp only [hb, if_true, List.length_cons]
      omega
    · rw [if_neg hk]
      have hnil : ((kw', tf) :: t).filter (fun r => r.1 == kw) = [] := by
        rw [List.filter_eq_nil_iff]
        intro r hr
        rcases List.mem_cons.mp hr with hr | hr
        · subst hr
          simpa using hk
        · have := ht r hr
          simp [this, hk]
      rw [hnil]
      rfl
  · exact List.length_filter_le _ t

theorem foldl_requestCount_le (p : Provider) (tf geo : String) (br bg bs : Bool)
    (kw : String) : ∀ (ks : List String) (st : ExecState),
    requestCount (ks.foldl (processKeyword p tf geo br bg bs) st) kw
      ≤ requestCount st kw + 2 * ks.count kw := by
  intro ks
  induction ks with
  | nil => intro st; simp
  | cons kw' ks ih =>
    intro st
    rw [List.foldl_cons]
    rcases processKeyword_requests p tf geo br bg bs st kw' with ⟨t, ht, hcase⟩
    have hsub : ∀ r ∈ t, r.1 = kw' := by
      intro r hr
      rcases hcase with h | h <;> subst h
      · cases hr
      · rw [List.mem_singleton] at hr
        subst hr
        rfl
    have hlen : t.length ≤ 1 := by
      rcases hcase with h | h <;> subst h <;> simp
    have hstep : requestCount (processKeyword p tf geo br bg bs st kw') kw
        ≤ requestCount st kw + 2 * (if kw' = kw then 1 else 0) := by
      simp only [requestCount]
      rw [ht, List.filter_append, List.length_append]
      rcases filter_subject_cons kw kw' tf t hsub with ⟨hhead, htail⟩
      rw [hhead]
      by_cases hk : kw' = kw <;> simp [hk] <;> omega
    calc requestCount (ks.foldl (processKeyword p tf geo br bg bs)
            (processKeyword p tf geo br bg bs st kw')) kw
        ≤ requestCount (processKeyword p tf geo br bg bs st kw') kw + 2 * ks.count kw :=
          ih _
      _ ≤ requestCount st kw + 2 * (if kw' = kw then 1 else 0) + 2 * ks.count kw := by
          omega
      _ = requestCount st kw + 2 * (kw' :: ks).count kw := by
          rw [List.count_cons]
          by_cases hk : kw' = kw <;> simp [hk] <;> omega

theorem foldl_requestCount_noSeason (p : Provider) (tf geo : String) (br bg : Bool)
    (kw : String) : ∀ (ks : List String) (st : ExecState),
    requestCount (ks.foldl (processKeyword p tf geo br bg false) st) kw
      = requestCount st kw + ks.count kw := by
  intro ks
  induction ks with
  | nil => intro st; simp
  | cons kw' ks ih =>
    intro st
    rw [List.foldl_cons, ih, List.count_cons]
    have hstep : requestCount (processKeyword p tf geo br bg false st kw') kw
        = requestCount st kw + (if kw' = kw then 1 else 0) := by
      simp only [requestCount]
      rw [processKeyword_requests_noSeason, List.filter_append, List.length_append]
      congr 1
      by_cases hk : kw' = kw
      · have : ((kw', tf).1 == kw) = true := beq_iff_eq.mpr hk
        simp [List.filter_cons, this, hk]
      · have : ((kw', tf).1 == kw) = false := by simpa using hk
        simp [List.filter_cons, this, hk]
    rw [hstep]
    by_cases hk : kw' = kw <;> simp [hk] <;> omega

/-! ### Section shape of runs -/

/-- A keyword whose main fetch raises is downgraded to exactly one inline
error section, after its request is logged. -/
theorem processKeyword_error (p : Provider) (tf geo : String) (br bg bs : Bool)
    (st : ExecState) (kw e : String)
    (h : p.interestOverTime kw tf geo = Except.error e) :
    processKeyword p tf geo br bg bs st kw
      = addSection (logRequest st kw tf) .error (errorLine kw e) := by
  rw [processKeyword, h]

theorem relatedStage_allOff (p : Provider) (geo : String) (kw : String) (st : ExecState) :
    relatedStage p geo false false false kw st = st := by
  rw [relatedStage, geoStage, seasonStage]
  simp

theorem processKeyword_trendOnly (p : Provider) (tf geo : String) (st : ExecState)
    (kw : String) (data : Series)
    (hf : p.interestOverTime kw tf geo = Except.ok data) (hne : data.isEmpty = false) :
    processKeyword p tf geo false false false st kw
      = addSection { logRequest st kw tf with
          combined := (logRequest st kw tf).combined ++ rowsOf kw data }
        .trend (generateTrendReport data kw) := by
  rw [processKeyword, hf]
  simp only [hne, Bool.false_eq_true, if_false]
  rw [relatedStage_allOff]

theorem foldl_sections_trendOnly (p : Provider) (tf geo : String) :
    ∀ (ks : List String) (st : ExecState),
    (∀ kw ∈ ks, ∃ d, p.interestOverTime kw tf geo = Except.ok d ∧ d.isEmpty = false) →
    (ks.foldl (processKeyword p tf geo false false false) st).sections
      = st.sections ++ ks.map (fun kw =>
          ⟨.trend, generateTrendReport (okData p tf geo kw) kw⟩) := by
  intro ks
  induction ks with
  | nil => intro st _; simp
  | cons kw ks ih =>
    intro st h
    rcases h kw (by simp) with ⟨d, hf, hne⟩
    rw [List.foldl_cons, processKeyword_trendOnly p tf geo st kw d hf hne,
      ih _ (fun x hx => h x (by simp [hx]))]
    have hok : okData p tf geo kw = d := by
      rw [okData, hf]
    simp only [List.map_cons]
    rw [hok]
    simp [addSection, logRequest]

theorem filter_flatMap_mainRows (p : Provider) (tf geo kw : String) :
    ∀ ks : List String,
    (ks.flatMap (mainRows p tf geo)).filter (fun r => r.keyword == kw)
      = (ks.filter (fun k => k == kw)).flatMap (mainRows p tf geo) := by
  intro ks
  induction ks with
  | nil => rfl
  | cons k ks ih =>
    rw [List.flatMap_cons, List.filter_append, ih, List.filter_cons]
    by_cases hk : k = kw
    · have hb : (k == kw) = true := beq_iff_eq.mpr hk
      simp only [hb, if_true, List.flatMap_cons]
      have hall : (mainRows p tf geo k).filter (fun r => r.keyword == kw)
          = mainRows p tf geo k := by
        rw [List.filter_eq_self]
        intro r hr
        exact beq_iff_eq.mpr (hk ▸ mainRows_keyword p tf geo k r hr)
      rw [hall]
    · have hb : (k == kw) = false := by simpa using hk
      simp only [hb, Bool.false_eq_true, if_false]
      have hnil : (mainRows p tf geo k).filter (fun r => r.keyword == kw) = [] := by
        rw [List.filter_eq_nil_iff]
        intro r hr
        have := mainRows_keyword p tf geo k r hr
        simp [this, hk]
      rw [hnil, List.nil_append]

/-! ### Concrete providers and inputs for witnesses and counterexamples -/

/-- Provider whose every call succeeds: each main fetch returns one data
point of value 5. -/
def okProvider : Provider :=
  { interestOverTime := fun _ _ _ => .ok [(⟨2024, 1, 1⟩, 5)]
    relatedQueries := fun _ => .ok []
    interestByRegion := fun _ _ => .ok [] }

/-- Provider whose related-queries call always raises while the main fetch
succeeds. -/
def relatedErrProvider : Provider :=
  { interestOverTime := fun _ _ _ => .ok [(⟨2024, 1, 1⟩, 7)]
    relatedQueries := fun _ => .error "rate limit"
    interestByRegion := fun _ _ => .ok [] }

/-- Provider that raises on keyword "b" only. -/
def failBProvider : Provider :=
  { interestOverTime := fun kw _ _ =>
      if kw = "b" then .error "boom" else .ok [(⟨2024, 1, 1⟩, 4)]
    relatedQueries := fun _ => .ok []
    interestByRegion := fun _ _ => .ok [] }

/-- The spec's seasonality example series. -/
def exampleSeries : Series :=
  [(⟨2024, 1, 1⟩, 10), (⟨2024, 1, 2⟩, 30), (⟨2024, 1, 3⟩, 30)]

/-! ### Claims -/

/-- C1, counterexample: with all optional sections disabled and the
two-keyword list `["a", "b"]` fully served by the provider, the composed
report holds two trend sections, one per keyword, not exactly one section
for the whole list. -/
theorem claim1_single_trend_section_cex :
    ¬ (((runKeywords okProvider "now 7-d" "" false false false ["a", "b"]).sections.filter
        (fun s => s.kind == SectionKind.trend)).length = 1) := by
  decide

/-- C1, amended: with the optional sections disabled and every keyword's
fetch succeeding with non-empty data, the report consists of one trend
section per keyword, in input order; each section is titled with its own
keyword, and its column header row is the fixed `Date\t\tInterest` line,
which names no keywords. -/
theorem claim1_trend_sections (p : Provider) (tf geo : String) (ks : List String)
    (hne : ks ≠ [])
    (h : ∀ kw ∈ ks, ∃ d, p.interestOverTime kw tf geo = Except.ok d ∧ d.isEmpty = false) :
    (runKeywords p tf geo false false false ks).sections
      = ks.map (fun kw => ⟨.trend, generateTrendReport (okData p tf geo kw) kw⟩)
    ∧ ∀ data kw2, generateTrendReport data kw2
        = "Trends Report for '" ++ kw2 ++ "':\n\nDate\t\tInterest\n"
          ++ dashes30 ++ "\n"
          ++ String.join (data.map (fun dv => fmtDate dv.1 ++ "\t" ++ natToStr dv.2 ++ "\n"))
          ++ "\n" := by
  constructor
  · rw [runKeywords, foldl_sections_trendOnly p tf geo ks initState h]
    simp [initState]
  · intro data kw2
    rw [generateTrendReport]
    simp [String.append_assoc]

theorem claim1_trend_sections_witness :
    ((["a", "b"] : List String) ≠ []
      ∧ ∀ kw ∈ ["a", "b"], ∃ d, okProvider.interestOverTime kw "now 7-d" "" = Except.ok d
          ∧ d.isEmpty = false)
    ∧ ((runKeywords okProvider "now 7-d" "" false false false ["a", "b"]).sections
        = ["a", "b"].map (fun kw =>
            ⟨.trend, generateTrendReport (okData okProvider "now 7-d" "" kw) kw⟩)
      ∧ ∀ data kw2, generateTrendReport data kw2
          = "Trends Report for '" ++ kw2 ++ "':\n\nDate\t\tInterest\n"
            ++ dashes30 ++ "\n"
            ++ String.join (data.map (fun dv => fmtDate dv.1 ++ "\t" ++ natToStr dv.2 ++ "\n"))
            ++ "\n") :=
  ⟨⟨by decide, fun kw _ => ⟨[(⟨2024, 1, 1⟩, 5)], rfl, rfl⟩⟩,
    claim1_trend_sections okProvider "now 7-d" "" ["a", "b"] (by decide)
      (fun kw _ => ⟨[(⟨2024, 1, 1⟩, 5)], rfl, rfl⟩)⟩

/-- C2, counterexample: keyword "a" raises a provider error (in the
related-queries call, after the main fetch succeeded), yet its complete
series sits in the combined dataset, contradicting the claim that no rows
of an erroring keyword are written. -/
theorem claim2_no_partial_write_cex :
    ((runKeywords relatedErrProvider "now 7-d" "" true false false ["a"]).sections.map
        (fun s => s.kind) = [SectionKind.trend, SectionKind.error])
    ∧ ¬ ((runKeywords relatedErrProvider "now 7-d" "" true false false ["a"]).combined.filter
          (fun r => r.keyword == "a") = []) := by
  decide

/-- C2, amended: the per-keyword update of the combined dataset is atomic
in the complete-or-nothing sense: each occurrence of a keyword contributes
either its complete main-fetch series or nothing, and it contributes
nothing exactly when the main interest fetch errors or returns empty — a
provider error in a later optional stage leaves the already-written
complete series in place. -/
theorem claim2_atomic_contribution (p : Provider) (tf geo : String) (br bg bs : Bool)
    (ks : List String) (kw : String) :
    (runKeywords p tf geo br bg bs ks).combined.filter (fun r => r.keyword == kw)
      = (ks.filter (fun k => k == kw)).flatMap (mainRows p tf geo)
    ∧ (mainRows p tf geo kw = []
        ∨ ∃ d, p.interestOverTime kw tf geo = Except.ok d ∧ d.isEmpty = false
            ∧ mainRows p tf geo kw = rowsOf kw d) := by
  constructor
  · rw [runKeywords_combined, filter_flatMap_mainRows]
  · cases hf : p.interestOverTime kw tf geo with
    | error e =>
      refine Or.inl ?_
      rw [mainRows, hf]
    | ok d =>
      by_cases he : d.isEmpty
      · refine Or.inl ?_
        rw [mainRows, hf]
        simp [he]
      · refine Or.inr ⟨d, rfl, by simpa using he, ?_⟩
        rw [mainRows, hf]
        simp [he]

/-- C3: any save format other than csv, json and db falls through to the
final else branch: a text artifact is written with the composed report and
the text sink's confirmation message is returned; no error is raised. -/
theorem claim3_unknown_format (p : Provider) (ks : List String) (tf geo fmt : String)
    (br bg bs : Bool) (h1 : fmt ≠ "csv") (h2 : fmt ≠ "json") (h3 : fmt ≠ "db") :
    execute p ks tf geo fmt br bg bs
      = (Artifact.txt (filenameBase ks ++ ".txt")
          (reportText (runKeywords p tf geo br bg bs ks)),
        "Successfully saved report to " ++ filenameBase ks ++ ".txt.") := by
  simp only [execute, saveReport]
  rw [if_neg h1, if_neg h2, if_neg h3]

theorem claim3_unknown_format_witness :
    (("xml" : String) ≠ "csv" ∧ ("xml" : String) ≠ "json" ∧ ("xml" : String) ≠ "db")
    ∧ execute okProvider ["a"] "now 7-d" "" "xml" true true true
        = (Artifact.txt (filenameBase ["a"] ++ ".txt")
            (reportText (runKeywords okProvider "now 7-d" "" true true true ["a"])),
          "Successfully saved report to " ++ filenameBase ["a"] ++ ".txt.") :=
  ⟨⟨by decide, by decide, by decide⟩,
    claim3_unknown_format okProvider ["a"] "now 7-d" "" "xml" true true true
      (by decide) (by decide) (by decide)⟩

/-- C4: a provider error on the main fetch of one keyword is caught and
becomes exactly one inline error section naming that keyword, and the loop
then continues over the remaining keywords exactly as a fresh fold from the
post-error state. -/
theorem claim4_error_continues (p : Provider) (tf geo : String) (br bg bs : Bool)
    (ks1 ks2 : List String) (bad e : String)
    (h : p.interestOverTime bad tf geo = Except.error e) :
    runKeywords p tf geo br bg bs (ks1 ++ bad :: ks2)
      = ks2.foldl (processKeyword p tf geo br bg bs)
          (addSection (logRequest (runKeywords p tf geo br bg bs ks1) bad tf)
            .error (errorLine bad e)) := by
  rw [runKeywords, List.foldl_append, List.foldl_cons,
    processKeyword_error p tf geo br bg bs _ bad e h]
  rfl

theorem claim4_error_continues_witness :
    failBProvider.interestOverTime "b" "now 7-d" "" = Except.error "boom"
    ∧ runKeywords failBProvider "now 7-d" "" false false false (["a"] ++ "b" :: ["c"])
        = ["c"].foldl (processKeyword failBProvider "now 7-d" "" false false false)
            (addSection
              (logRequest (runKeywords failBProvider "now 7-d" "" false false false ["a"])
                "b" "now 7-d")
              .error (errorLine "b" "boom"))
    ∧ ((runKeywords failBProvider "now 7-d" "" false false false ["a", "b", "c"]).sections.map
        (fun s => s.kind) = [SectionKind.trend, SectionKind.error, SectionKind.trend])
    ∧ (runKeywords failBProvider "now 7-d" "" false false false ["a", "b", "c"]).combined
        = [⟨⟨2024, 1, 1⟩, "a", 4⟩, ⟨⟨2024, 1, 1⟩, "c", 4⟩] :=
  ⟨rfl,
    claim4_error_continues failBProvider "now 7-d" "" false false false ["a"] ["c"] "b" "boom"
      rfl,
    by decide, by decide⟩

/-- C5: for a non-empty series the seasonality report is built from the
maximum interest value — an attained upper bound of the series — and emits
one peak line per date attaining it, the stated value being that maximum;
on the spec's example series the maximum is 30 with peak dates 2024-01-02
and 2024-01-03. -/
theorem claim5_seasonality_peaks (data : Series) (kw : String) (h : data ≠ []) :
    (∀ v ∈ data.map (fun dv => dv.2), v ≤ maxInterest data)
    ∧ maxInterest data ∈ data.map (fun dv => dv.2)
    ∧ (∀ d, d ∈ peakDates data ↔ (d, maxInterest data) ∈ data)
    ∧ peakDates data ≠ []
    ∧ generateSeasonalityReport data kw
        = "\nSeasonality Analysis:\n" ++ dashes30 ++ "\n"
          ++ ("\nSeasonality for '" ++ kw ++ "':\n")
          ++ String.join ((peakDates data).map (fun d =>
              "Peak interest on " ++ fmtDate d ++ " with value "
                ++ natToStr (maxInterest data) ++ "\n"))
          ++ "\n"
    ∧ maxInterest exampleSeries = 30
    ∧ peakDates exampleSeries = [⟨2024, 1, 2⟩, ⟨2024, 1, 3⟩] := by
  refine ⟨le_maxInterest data, maxInterest_mem data h, fun d => mem_peakDates data d,
    peakDates_ne_nil data h, ?_, by decide, by decide⟩
  have hempty : data.isEmpty = false := by
    cases data with
    | nil => exact absurd rfl h
    | cons dv rest => rfl
  rw [generateSeasonalityReport, hempty]
  simp

theorem claim5_seasonality_peaks_witness :
    exampleSeries ≠ []
    ∧ ((∀ v ∈ exampleSeries.map (fun dv => dv.2), v ≤ maxInterest exampleSeries)
      ∧ maxInterest exampleSeries ∈ exampleSeries.map (fun dv => dv.2)
      ∧ (∀ d, d ∈ peakDates exampleSeries ↔ (d, maxInterest exampleSeries) ∈ exampleSeries)
      ∧ peakDates exampleSeries ≠ []
      ∧ generateSeasonalityReport exampleSeries "vacation"
          = "\nSeasonality Analysis:\n" ++ dashes30 ++ "\n"
            ++ ("\nSeasonality for '" ++ "vacation" ++ "':\n")
            ++ String.join ((peakDates exampleSeries).map (fun d =>
                "Peak interest on " ++ fmtDate d ++ " with value "
                  ++ natToStr (maxInterest exampleSeries) ++ "\n"))
            ++ "\n"
      ∧ maxInterest exampleSeries = 30
      ∧ peakDates exampleSeries = [⟨2024, 1, 2⟩, ⟨2024, 1, 3⟩]) :=
  ⟨by decide, claim5_seasonality_peaks exampleSeries "vacation" (by decide)⟩

/-- Region-interest table with twelve regions, for the C6 witness. -/
def exampleRegions : List (String × Nat) :=
  [("r1", 3), ("r2", 7), ("r3", 1), ("r4", 9), ("r5", 5), ("r6", 11), ("r7", 2),
   ("r8", 8), ("r9", 6), ("r10", 10), ("r11", 4), ("r12", 12)]

/-- C6: the geo section lists the sorted head of the region table — never
more than 10 regions — and the listed values are pairwise non-increasing in
listed order. -/
theorem claim6_geo_bounded (gd : List (String × Nat)) (kw : String) (h : gd ≠ []) :
    (geoTop gd).length ≤ 10
    ∧ List.Pairwise (fun a b => b.2 ≤ a.2) (geoTop gd)
    ∧ generateGeoReport gd kw
        = "\nGeographical Analysis:\n" ++ dashes30 ++ "\n"
          ++ String.join ((geoTop gd).map (fun rv => rv.1 ++ " - " ++ natToStr rv.2 ++ "\n"))
          ++ "\n" := by
  refine ⟨geoTop_length gd, geoTop_pairwise gd, ?_⟩
  have hempty : gd.isEmpty = false := by
    cases gd with
    | nil => exact absurd rfl h
    | cons rv rest => rfl
  rw [generateGeoReport, hempty]
  simp

theorem claim6_geo_bounded_witness :
    exampleRegions ≠ []
    ∧ ((geoTop exampleRegions).length ≤ 10
      ∧ List.Pairwise (fun a b => b.2 ≤ a.2) (geoTop exampleRegions)
      ∧ generateGeoReport exampleRegions "vacation"
          = "\nGeographical Analysis:\n" ++ dashes30 ++ "\n"
            ++ String.join ((geoTop exampleRegions).map (fun rv =>
                rv.1 ++ " - " ++ natToStr rv.2 ++ "\n"))
            ++ "\n") :=
  ⟨by decide, claim6_geo_bounded exampleRegions "vacation" (by decide)⟩

/-- C7, counterexample: with seasonality enabled, the single keyword "a"
is the subject of two time-window provider requests in one call — the main
timeframe and the full-history reissue — refuting "at most once per
call". -/
theorem claim7_single_query_cex :
    ¬ (requestCount (runKeywords okProvider "now 7-d" "" false false true ["a"]) "a" ≤ 1) := by
  decide

/-- C7, amended: per call, each keyword receives one main time-window
request per list occurrence when seasonality is disabled, and never more
than two per occurrence in general (the main request plus at most one
full-history seasonality reissue). -/
theorem claim7_request_counts (p : Provider) (tf geo : String) (br bg : Bool)
    (ks : List String) (kw : String) :
    requestCount (runKeywords p tf geo br bg false ks) kw = ks.count kw
    ∧ ∀ bs, requestCount (runKeywords p tf geo br bg bs ks) kw ≤ 2 * ks.count kw := by
  constructor
  · rw [runKeywords, foldl_requestCount_noSeason]
    simp [requestCount, initState]
  · intro bs
    have hle := foldl_requestCount_le p tf geo br bg bs kw ks initState
    rw [runKeywords]
    have h0 : requestCount initState kw = 0 := rfl
    omega

/-- Combined long-format dataset for the C8 witness. -/
def exampleRows : List Row :=
  [⟨⟨2024, 1, 1⟩, "machine learning", 10⟩, ⟨⟨2024, 1, 2⟩, "machine learning", 0⟩,
   ⟨⟨2024, 1, 2⟩, "rust-lang", 97⟩]

/-- C8: writing the combined dataset through the csv sink and parsing the
written lines back reproduces exactly the original (date, keyword, value)
rows, whenever the keywords are free of the CSV metacharacters that would
trigger quoting (comma, double quote, line break). -/
theorem claim8_csv_round_trip (rows : List Row) (h : ∀ r ∈ rows, plainKeyword r.keyword) :
    readCsvLines (saveToCsvLines rows) = some rows := by
  show (rows.map renderLine).mapM parseLine = some rows
  exact readCsv_mapM rows h

theorem claim8_csv_round_trip_witness :
    (∀ r ∈ exampleRows, plainKeyword r.keyword)
    ∧ readCsvLines (saveToCsvLines exampleRows) = some exampleRows :=
  ⟨by decide, claim8_csv_round_trip exampleRows (by decide)⟩

/-- C9: on the empty keyword list the fetch loop performs zero provider
requests, the report is the empty string, and — with the default txt save
format — a text artifact named `_trends_report.txt` holding the empty
report is written and the text sink's success confirmation is returned; no
error path exists. -/
theorem claim9_empty_keywords (p : Provider) (tf geo : String) (br bg bs : Bool) :
    execute p [] tf geo "txt" br bg bs
      = (Artifact.txt "_trends_report.txt" "",
        "Successfully saved report to _trends_report.txt.")
    ∧ (runKeywords p tf geo br bg bs []).requests = []
    ∧ reportText (runKeywords p tf geo br bg bs []) = "" :=
  ⟨rfl, rfl, rfl⟩

/-- C10: under the csv, json and db formats the artifact carries only the
combined time-series rows — the composed report, with its inline error
lines and no-data notes, is discarded and reaches no structured sink. -/
theorem claim10_structured_sink (p : Provider) (ks : List String) (tf geo fmt : String)
    (br bg bs : Bool) (h : fmt = "csv" ∨ fmt = "json" ∨ fmt = "db") :
    artifactText (execute p ks tf geo fmt br bg bs).1 = none
    ∧ artifactRows (execute p ks tf geo fmt br bg bs).1
        = some (runKeywords p tf geo br bg bs ks).combined := by
  rcases h with rfl | rfl | rfl <;>
    simp [execute, saveReport, artifactText, artifactRows]

theorem claim10_structured_sink_witness :
    (("csv" : String) = "csv" ∨ ("csv" : String) = "json" ∨ ("csv" : String) = "db")
    ∧ artifactText (execute relatedErrProvider ["a"] "now 7-d" "" "csv" true false false).1 = none
    ∧ artifactRows (execute relatedErrProvider ["a"] "now 7-d" "" "csv" true false false).1
        = some (runKeywords relatedErrProvider "now 7-d" "" true false false ["a"]).combined :=
  ⟨Or.inl rfl,
    (claim10_structured_sink relatedErrProvider ["a"] "now 7-d" "" "csv" true false false
      (Or.inl rfl)).1,
    (claim10_structured_sink relatedErrProvider ["a"] "now 7-d" "" "csv" true false false
      (Or.inl rfl)).2⟩

end GoogleTrendsTool
